import Mathlib

/-!
Verification of the archive-manipulation core of CatRAR (src/catrarv0.py).

The Python source is shallowly embedded below.  The GUI shell (menus,
dialogs, tree view) is not modelled; what is modelled is the archive state
held by the `CatRAR` class (`current_archive`, `archive_entries`, the status
bar text) together with an explicit on-disk container store, and the archive
operations `load_archive`, `new_archive`, `_add_to_archive`,
`extract_selected`, `_extract`, `delete_selected` and `test_archive`.
Python library behaviour that the source relies on (zipfile, tarfile,
datetime, os.path) is embedded where the claims depend on it and documented
at each definition.
-/

namespace CatRAR

/-! ## Characters, strings and paths

The source dispatches on file extensions with `str.endswith` and builds
file-system paths with `os.path.join`.  These are embedded as structural
functions over `List Char` so that every concrete instance evaluates in the
kernel. -/

/-- Does the reversed list `l` start with the reversed suffix `s`?  Helper for
`listEndsWith`. -/
def revStartsWith : List Char → List Char → Bool
  | _, [] => true
  | [], _ :: _ => false
  | a :: as, b :: bs => a == b && revStartsWith as bs

/-- `listEndsWith l suf` is true when `suf` is a suffix of `l`. -/
def listEndsWith (l suf : List Char) : Bool :=
  revStartsWith l.reverse suf.reverse

/-- Embedding of Python `s.endswith(suf)`. -/
def strEndsWith (s suf : String) : Bool :=
  listEndsWith s.data suf.data

/-- Split a character list at every occurrence of `c` (accumulator form). -/
def splitOnCharAux (c : Char) : List Char → List Char → List (List Char)
  | [], acc => [acc.reverse]
  | x :: xs, acc =>
    if x == c then acc.reverse :: splitOnCharAux c xs []
    else splitOnCharAux c xs (x :: acc)

/-- Split a string on `/`, as Python `s.split(sep)` does: `splitSlash "" = [""]`,
`splitSlash "a/b" = ["a", "b"]`. -/
def splitSlash (s : String) : List String :=
  (splitOnCharAux '/' s.data []).map String.mk

/-- Interleave `sep` between the lists of `parts`. -/
def listIntercalate (sep : List Char) : List (List Char) → List Char
  | [] => []
  | [x] => x
  | x :: y :: rest => x ++ sep ++ listIntercalate sep (y :: rest)

/-- Join path segments with `/`. -/
def joinSegs (segs : List String) : String :=
  String.mk (listIntercalate ['/'] (segs.map (fun s => s.data)))

/-- Is the first character of `s` a slash? -/
def strHeadIsSlash (s : String) : Bool :=
  match s.data with
  | [] => false
  | c :: _ => c == '/'

/-- Embedding of POSIX `os.path.join(a, b)` for two arguments: an absolute
second argument replaces the first, otherwise the two are joined with a single
separator. -/
def osPathJoin (a b : String) : String :=
  if strHeadIsSlash b then b
  else if a.data = [] then b
  else if a.data.getLast? = some '/' then String.mk (a.data ++ b.data)
  else String.mk (a.data ++ '/' :: b.data)

/-- Embedding of `os.path.basename`: the part after the last slash. -/
def basename (p : String) : String :=
  (splitSlash p).getLastD ""

/-! Path normalization, used to give formal meaning to "the written file lies
outside the destination directory": empty and `.` segments are dropped and a
`..` segment removes the preceding segment, as POSIX path resolution does when
no symlinks intervene. -/

/-- One step of path normalization. -/
def normStep (acc : List String) (seg : String) : List String :=
  if seg == "" || seg == "." then acc
  else if seg == ".." then acc.dropLast
  else acc ++ [seg]

/-- The normalized segment list of a path. -/
def resolveSegs (p : String) : List String :=
  (splitSlash p).foldl normStep []

/-- Is `a` an initial run of `b`, segment by segment? -/
def segsLe : List String → List String → Bool
  | [], _ => true
  | _ :: _, [] => false
  | a :: as, b :: bs => a == b && segsLe as bs

/-- `isUnder dir p` holds when the normalized path `p` lies inside the
directory `dir` (both taken from the same root). -/
def isUnder (dir p : String) : Bool :=
  segsLe (resolveSegs dir) (resolveSegs p)

/-! ## Errors, timestamps and entry metadata -/

/-- The Python exceptions that the archive operations can surface.  Note that
the source defines no `UnsafePathError` (or any custom exception) anywhere;
only library exceptions occur. -/
inductive PyError where
  /-- `ValueError`: unsupported format, invalid datetime fields, bad open mode. -/
  | valueError (msg : String)
  /-- `KeyError` from `ZipFile.getinfo` / `TarFile.getmember` on a missing name. -/
  | keyError (name : String)
  /-- `FileNotFoundError`. -/
  | fileNotFound (path : String)
  /-- `zipfile.BadZipFile` / `tarfile.ReadError`: structural parse failure. -/
  | badArchive (msg : String)
  /-- a failure while decoding the byte stream of the named entry. -/
  | badData (name : String)
deriving DecidableEq, Repr

/-- A calendar date-time, as `datetime.datetime` stores it. -/
structure PyDateTime where
  year : Nat
  month : Nat
  day : Nat
  hour : Nat
  minute : Nat
  second : Nat
deriving DecidableEq, Repr

/-- Gregorian leap-year test, as `datetime` uses. -/
def isLeapYear (y : Nat) : Bool :=
  y % 4 == 0 && (y % 100 != 0 || y % 400 == 0)

/-- Days in a month of the Gregorian calendar. -/
def daysInMonth (y m : Nat) : Nat :=
  if m == 2 then (if isLeapYear y then 29 else 28)
  else if m == 4 || m == 6 || m == 9 || m == 11 then 30
  else 31

/-- Embedding of the `datetime.datetime(y, mo, d, h, mi, s)` constructor:
it validates every field (`MINYEAR = 1`, `MAXYEAR = 9999`, months `1..12`,
days `1..daysInMonth`, `h < 24`, `mi < 60`, `s < 60`) and raises `ValueError`
on any field out of range.  The source calls it with the raw tuple decoded
from a ZIP member, which can be invalid (e.g. a zeroed DOS date decodes to
month 0, day 0). -/
def mkDatetime (y mo d h mi s : Nat) : Except PyError PyDateTime :=
  if 1 ≤ y ∧ y ≤ 9999 ∧ 1 ≤ mo ∧ mo ≤ 12 ∧ 1 ≤ d ∧ d ≤ daysInMonth y mo
      ∧ h ≤ 23 ∧ mi ≤ 59 ∧ s ≤ 59 then
    .ok ⟨y, mo, d, h, mi, s⟩
  else
    .error (.valueError "invalid datetime fields")

/-- A timestamp as the source stores it in `ArchiveEntry.modified`: either a
calendar value built by `datetime(*date_time)` (ZIP) or a Unix time accepted
by `datetime.fromtimestamp` (TAR). -/
inductive PyTimestamp where
  | calendar (dt : PyDateTime)
  | unix (t : Int)
deriving DecidableEq, Repr

/-- Least Unix time representable by `datetime` (0001-01-01T00:00:00). -/
def datetimeMinTs : Int := -62135596800

/-- Greatest Unix time representable by `datetime` (9999-12-31T23:59:59). -/
def datetimeMaxTs : Int := 253402300799

/-- Embedding of `datetime.fromtimestamp(t)`: raises for timestamps outside
the representable year range 1..9999. -/
def datetimeFromTimestamp (t : Int) : Except PyError PyTimestamp :=
  if datetimeMinTs ≤ t ∧ t ≤ datetimeMaxTs then .ok (.unix t)
  else .error (.valueError "timestamp out of range")

/-- Embedding of the source's `ArchiveEntry` class (src/catrarv0.py lines
20-28): the metadata the session caches for one archive member. -/
structure ArchiveEntry where
  name : String
  size : Nat
  compressed_size : Nat
  modified : PyTimestamp
  is_dir : Bool
deriving DecidableEq, Repr

/-! ## On-disk containers

`zipfile` keeps, per member, a `ZipInfo` record plus the member's payload;
`tarfile` keeps a `TarInfo` plus the data blocks.  The payload is modelled at
the uncompressed level (`List Nat`, one `Nat` per byte); compressed sizes are
carried as stored metadata. -/

/-- The fields of `zipfile.ZipInfo` that the source reads.  `dosDate` and
`dosTime` are the raw 16-bit DOS words from the central directory; zipfile
exposes them decoded as the `date_time` tuple. -/
structure ZipInfo where
  filename : String
  file_size : Nat
  compress_size : Nat
  dosDate : Nat
  dosTime : Nat
deriving DecidableEq, Repr

/-- zipfile's decoding of the DOS date/time words into the `date_time`
tuple: `((d >> 9) + 1980, (d >> 5) & 0xF, d & 0x1F, t >> 11, (t >> 5) & 0x3F,
(t & 0x1F) * 2)`. -/
def ZipInfo.date_time (i : ZipInfo) : Nat × Nat × Nat × Nat × Nat × Nat :=
  ((i.dosDate >>> 9) + 1980, (i.dosDate >>> 5) % 16, i.dosDate % 32,
   i.dosTime >>> 11, (i.dosTime >>> 5) % 64, (i.dosTime % 32) * 2)

/-- `ZipInfo.is_dir()`: the filename ends with a slash. -/
def ZipInfo.is_dir (i : ZipInfo) : Bool :=
  strEndsWith i.filename "/"

/-- One ZIP member on disk: its central-directory record, its payload, and
whether the stored CRC matches the payload (what `testzip` checks). -/
structure ZipEntry where
  info : ZipInfo
  data : List Nat
  crcOk : Bool
deriving DecidableEq, Repr

/-- One TAR member on disk.  `dataOk` records whether the member's byte
stream can be decoded end-to-end; reading the data of a member with
`dataOk = false` fails (truncated or corrupted data blocks behind an intact
header). -/
structure TarMember where
  name : String
  size : Nat
  mtime : Int
  dirFlag : Bool
  dataOk : Bool
  data : List Nat
deriving DecidableEq, Repr

/-- `TarInfo.isdir()`. -/
def TarMember.isdir (m : TarMember) : Bool := m.dirFlag

/-- An archive container on disk: a ZIP central directory with members, or a
TAR member sequence (`gz` records whether the file is gzip-wrapped, which the
`r:gz` open mode requires). -/
inductive Container where
  | zipC (filelist : List ZipEntry)
  | tarC (gz : Bool) (members : List TarMember)
deriving DecidableEq, Repr

/-- The file system visible to the archive operations: a finite map from
path to container. -/
def Disk := List (String × Container)
deriving DecidableEq, Repr

/-- Look up the container stored at `p`. -/
def diskGet (d : Disk) (p : String) : Option Container :=
  (List.find? (fun e => e.1 == p) d).map (fun e => e.2)

/-- Store container `c` at path `p` (replacing any previous file, as the
write-then-`os.replace` sequences in the source do). -/
def diskSet (d : Disk) (p : String) (c : Container) : Disk :=
  (p, c) :: List.filter (fun e => !(e.1 == p)) d

/-- The status-bar messages the source produces via `update_status`,
parameterized instead of formatted. -/
inductive StatusMsg where
  | ready
  | adding
  | extracting
  | testing
  | loaded (n : Nat)
  | created (name : String)
  | added (n : Nat)
  | extracted (dest : String)
  | deleted (n : Nat)
  | testCompleted
deriving DecidableEq, Repr

/-- The archive-relevant state of the `CatRAR` object: `current_archive` and
`archive_entries` (src/catrarv0.py lines 40-41), the status bar text, and the
on-disk store the operations read and write. -/
structure CatRARState where
  current_archive : Option String
  archive_entries : List ArchiveEntry
  disk : Disk
  statusText : StatusMsg
deriving DecidableEq, Repr

/-! ## Entry enumeration (`_load_zip`, `_load_tar`, `load_archive`) -/

/-- The `ArchiveEntry` built from one ZIP member by `_load_zip`
(src/catrarv0.py lines 246-258): `datetime(*info.date_time)` can raise
`ValueError` on an invalid stored date, which aborts the load loop. -/
def zipEntryMeta (z : ZipEntry) : Except PyError ArchiveEntry :=
  match z.info.date_time with
  | (y, mo, d, h, mi, s) =>
    (mkDatetime y mo d h mi s).map fun dt =>
      { name := z.info.filename
        size := z.info.file_size
        compressed_size := z.info.compress_size
        modified := .calendar dt
        is_dir := z.info.is_dir }

/-- The `ArchiveEntry` built from one TAR member by `_load_tar`
(src/catrarv0.py lines 260-273); TAR stores no per-member compressed size, so
`compressed_size := size`.  `datetime.fromtimestamp(member.mtime)` can raise
on an out-of-range timestamp. -/
def tarEntryMeta (m : TarMember) : Except PyError ArchiveEntry :=
  (datetimeFromTimestamp m.mtime).map fun ts =>
    { name := m.name
      size := m.size
      compressed_size := m.size
      modified := ts
      is_dir := m.isdir }

/-- The per-member loop shared by `_load_zip` and `_load_tar`: each member is
converted and appended to `archive_entries` in turn; a conversion failure
aborts the loop, leaving the entries accumulated so far. -/
def loadEntriesLoop (conv : α → Except PyError ArchiveEntry) :
    List α → List ArchiveEntry → List ArchiveEntry × Option PyError
  | [], acc => (acc, none)
  | x :: xs, acc =>
    match conv x with
    | .ok e => loadEntriesLoop conv xs (acc ++ [e])
    | .error err => (acc, some err)

/-- The extension dispatch of `load_archive` (src/catrarv0.py lines 230-236)
together with the two loaders: `.zip` paths are opened with
`zipfile.ZipFile(_, "r")` (which fails on a missing file or non-ZIP
contents); `.tar` and `.tar.gz` paths with `tarfile.open` in mode `r:gz`
when the path ends in `.gz` (which requires gzip-wrapped contents) and the
transparent mode `r` otherwise; any other extension raises
`ValueError("Unsupported archive format")`.  The result is the entry list
accumulated before the first failure, plus that failure if any. -/
def loadDispatch (disk : Disk) (p : String) : List ArchiveEntry × Option PyError :=
  if strEndsWith p ".zip" then
    match diskGet disk p with
    | none => ([], some (.fileNotFound p))
    | some (.tarC _ _) => ([], some (.badArchive "File is not a zip file"))
    | some (.zipC fl) => loadEntriesLoop zipEntryMeta fl []
  else if strEndsWith p ".tar" || strEndsWith p ".tar.gz" then
    match diskGet disk p with
    | none => ([], some (.fileNotFound p))
    | some (.zipC _) => ([], some (.badArchive "truncated header"))
    | some (.tarC gz ms) =>
      if strEndsWith p ".gz" && !gz then ([], some (.badArchive "not a gzip file"))
      else loadEntriesLoop tarEntryMeta ms []
  else ([], some (.valueError "Unsupported archive format"))

/-- Embedding of `CatRAR.load_archive` (src/catrarv0.py lines 220-244).  The
method first sets `current_archive := filepath` and clears the cached entry
list, then enumerates members, appending each to the cache; on any exception
it shows an error dialog (reported here as the second component) and sets
`current_archive := None` — it does not clear the entries already appended.
On success the status bar shows the loaded count. -/
def load_archive (st : CatRARState) (filepath : String) : CatRARState × Option PyError :=
  match loadDispatch st.disk filepath with
  | (es, none) =>
    ({ st with current_archive := some filepath
               archive_entries := es
               statusText := .loaded es.length }, none)
  | (es, some e) =>
    ({ st with current_archive := none
               archive_entries := es }, some e)

/-- The common tail of `new_archive`, `_add_to_archive` and
`delete_selected`: reload the archive (`self.load_archive(...)`, whose
failure surfaces only through its own dialog and is reported here in the
error slot) and then put the operation's final message on the status bar. -/
def reloadAndStatus (st1 : CatRARState) (ca : String) (m : StatusMsg) :
    CatRARState × Option PyError :=
  match load_archive st1 ca with
  | (st2, e) => ({ st2 with statusText := m }, e)

/-! ## `new_archive` -/

/-- Embedding of `CatRAR.new_archive` (src/catrarv0.py lines 177-203), after
the save dialog returned `filepath`: an empty container is written for a
`.zip` or `.tar.gz` path — any other extension is silently skipped by the
`if/elif` — then `current_archive` is set and `load_archive` runs (its
failure surfaces only through its own dialog), and the status bar reports
the creation. -/
def new_archive (st : CatRARState) (filepath : String) : CatRARState × Option PyError :=
  let disk1 :=
    if strEndsWith filepath ".zip" then diskSet st.disk filepath (.zipC [])
    else if strEndsWith filepath ".tar.gz" then diskSet st.disk filepath (.tarC true [])
    else st.disk
  let st1 := { st with disk := disk1, current_archive := some filepath }
  reloadAndStatus st1 filepath (.created (basename filepath))

/-! ## `_add_to_archive` -/

/-- A regular source file handed to `_add_to_archive`: its file-system path,
its bytes and its modification time.  (Directory recursion via `os.walk` is
not modelled; no claim depends on it — the embedded call adds regular
files, each under its base name, exactly as the source file branch does.) -/
structure SrcFile where
  path : String
  data : List Nat
  mtime : Int
deriving DecidableEq, Repr

/-- Modelled from zipfile: `ZipFile.write` derives the stored `date_time`
from the source file's local modification time.  The exact words are
timezone-dependent; the only fact the claims use is that a real modification
time decodes to a valid calendar date, so the model stores the DOS epoch
1980-01-01 00:00:00 (date word 33 = year 1980, month 1, day 1; time word 0). -/
def dosOfMtime (_ : Int) : Nat × Nat := (33, 0)

/-- The ZIP member created by `zf.write(path, arcname)` in the source's add
loop: default `ZIP_STORED` compression (the `ZipFile(_, "a")` constructor
default), so the stored compressed size equals the file size. -/
def zipWrittenEntry (f : SrcFile) : ZipEntry :=
  { info := { filename := basename f.path
              file_size := f.data.length
              compress_size := f.data.length
              dosDate := (dosOfMtime f.mtime).1
              dosTime := (dosOfMtime f.mtime).2 }
    data := f.data
    crcOk := true }

/-- The TAR member created by `tf.add(path, arcname=basename(path))`. -/
def tarWrittenMember (f : SrcFile) : TarMember :=
  { name := basename f.path
    size := f.data.length
    mtime := f.mtime
    dirFlag := false
    dataOk := true
    data := f.data }

/-- Embedding of `CatRAR._add_to_archive` (src/catrarv0.py lines 311-341).
Status is set to "Adding files..." first.  For a `.zip` archive,
`ZipFile(_, "a")` appends the new members (creating the file when missing,
as zipfile's append mode does).  For a `.tar`/`.tar.gz` archive the mode is
`a:gz` when the path ends in `.gz` — and `tarfile`'s gzip opener rejects
append mode with `ValueError("mode must be r, w or x")` before touching the
file — else plain `a`, which appends (creating a missing file) but raises
`ReadError` if the existing bytes are not a plain TAR.  After the `if/elif`
the archive is reloaded (reload failures surface only through
`load_archive`'s own dialog, reported here in the error slot) and the status
bar reports the addition.  Appending a new ZIP section to a foreign file,
which zipfile's append mode would do, is unreachable from the embedded flows
and is modelled as a structural error. -/
def add_to_archive (st : CatRARState) (paths : List SrcFile) : CatRARState × Option PyError :=
  let st := { st with statusText := .adding }
  match st.current_archive with
  | none => (st, some (.valueError "NoneType has no attribute endswith"))
  | some ca =>
    if strEndsWith ca ".zip" then
      match diskGet st.disk ca with
      | some (.tarC _ _) => (st, some (.badArchive "File is not a zip file"))
      | some (.zipC fl) =>
        let st1 := { st with disk := diskSet st.disk ca (.zipC (fl ++ paths.map zipWrittenEntry)) }
        reloadAndStatus st1 ca (.added paths.length)
      | none =>
        let st1 := { st with disk := diskSet st.disk ca (.zipC (paths.map zipWrittenEntry)) }
        reloadAndStatus st1 ca (.added paths.length)
    else if strEndsWith ca ".tar" || strEndsWith ca ".tar.gz" then
      if strEndsWith ca ".gz" then (st, some (.valueError "mode must be r, w or x"))
      else
        match diskGet st.disk ca with
        | some (.zipC _) => (st, some (.badArchive "truncated header"))
        | some (.tarC gz ms) =>
          if gz then (st, some (.badArchive "truncated header"))
          else
            let st1 := { st with disk := diskSet st.disk ca (.tarC false (ms ++ paths.map tarWrittenMember)) }
            reloadAndStatus st1 ca (.added paths.length)
        | none =>
          let st1 := { st with disk := diskSet st.disk ca (.tarC false (paths.map tarWrittenMember)) }
          reloadAndStatus st1 ca (.added paths.length)
    else
      reloadAndStatus st ca (.added paths.length)

/-! ## Extraction (`_extract`, `extract_selected`) -/

/-- A regular file written to the host file system during extraction. -/
structure WrittenFile where
  path : String
  data : List Nat
deriving DecidableEq, Repr

/-- zipfile's member-name sanitization in `ZipFile._extract_member` (POSIX):
the name is split on the separator and every part that is empty, `.` or `..`
is dropped, silently — traversal segments are removed, no error is raised. -/
def zipSanitizeArcname (name : String) : String :=
  joinSegs ((splitSlash name).filter (fun s => !(s == "" || s == "." || s == "..")))

/-- The target path `ZipFile.extract` writes a member to:
`os.path.join(destination, sanitized_name)`. -/
def zipExtractTarget (dest name : String) : String :=
  osPathJoin dest (zipSanitizeArcname name)

/-- The target path `TarFile.extract` writes a member to:
`os.path.join(destination, member.name)`, with no sanitization of the member
name (the default pre-filter behaviour of `tarfile` that the source invokes;
no `filter=` argument is passed). -/
def tarExtractTarget (dest name : String) : String :=
  osPathJoin dest name

/-- The files written by `zf.extractall(destination)`: every non-directory
member, at its sanitized target path, in archive order. -/
def zipExtractAll (fl : List ZipEntry) (dest : String) : List WrittenFile :=
  fl.filterMap fun z =>
    if z.info.is_dir then none
    else some { path := zipExtractTarget dest z.info.filename, data := z.data }

/-- The files written by `tf.extractall(destination)`: every non-directory
member, at `os.path.join(destination, member.name)`, in archive order. -/
def tarExtractAll (ms : List TarMember) (dest : String) : List WrittenFile :=
  ms.filterMap fun m =>
    if m.isdir then none
    else some { path := tarExtractTarget dest m.name, data := m.data }

/-- Embedding of `CatRAR._extract` (src/catrarv0.py lines 396-414): dispatch
on the extension of `current_archive`, a single `extractall` call, then the
status bar reports the destination.  Returns the written files and the
surfaced error, if any. -/
def extract_all (st : CatRARState) (dest : String) :
    CatRARState × List WrittenFile × Option PyError :=
  let st := { st with statusText := .extracting }
  match st.current_archive with
  | none => (st, [], some (.valueError "NoneType has no attribute endswith"))
  | some ca =>
    if strEndsWith ca ".zip" then
      match diskGet st.disk ca with
      | some (.zipC fl) =>
        ({ st with statusText := .extracted dest }, zipExtractAll fl dest, none)
      | some (.tarC _ _) => (st, [], some (.badArchive "File is not a zip file"))
      | none => (st, [], some (.fileNotFound ca))
    else if strEndsWith ca ".tar" || strEndsWith ca ".tar.gz" then
      match diskGet st.disk ca with
      | some (.tarC gz ms) =>
        if strEndsWith ca ".gz" && !gz then (st, [], some (.badArchive "not a gzip file"))
        else ({ st with statusText := .extracted dest }, tarExtractAll ms dest, none)
      | some (.zipC _) => (st, [], some (.badArchive "truncated header"))
      | none => (st, [], some (.fileNotFound ca))
    else
      ({ st with statusText := .extracted dest }, [], none)

/-- `ZipFile.getinfo(name)`: zipfile's `NameToInfo` map is built by iterating
the member list, so a duplicated name resolves to its last occurrence;
a missing name raises `KeyError`. -/
def zipGetInfoEntry (fl : List ZipEntry) (n : String) : Option ZipEntry :=
  List.find? (fun z => z.info.filename == n) fl.reverse

/-- `zf.read(name)`: the payload of the member `getinfo(name)` resolves to. -/
def zipReadByName (fl : List ZipEntry) (name : String) : Option (List Nat) :=
  (zipGetInfoEntry fl name).map (fun z => z.data)

/-- `TarFile.getmember(name)`: the last member bearing `name` ("its last
occurrence is assumed to be the most up-to-date version"); a missing name
raises `KeyError`. -/
def tarGetMember (ms : List TarMember) (n : String) : Option TarMember :=
  List.find? (fun m => m.name == n) ms.reverse

/-- The ZIP loop of `extract_selected`: `for name in selected_names:
zf.extract(name, destination)`.  Each name is looked up and written in turn;
a missing name raises `KeyError` at the point it is reached, keeping the
files already written.  Directory members only create a directory. -/
def extractSelectedZipLoop (fl : List ZipEntry) (dest : String) :
    List String → List WrittenFile → List WrittenFile × Option PyError
  | [], acc => (acc, none)
  | n :: ns, acc =>
    match zipGetInfoEntry fl n with
    | none => (acc, some (.keyError n))
    | some z =>
      if z.info.is_dir then extractSelectedZipLoop fl dest ns acc
      else extractSelectedZipLoop fl dest ns
        (acc ++ [{ path := zipExtractTarget dest z.info.filename, data := z.data }])

/-- The TAR loop of `extract_selected`: `member = tf.getmember(name);
tf.extract(member, destination)`, same incremental behaviour as the ZIP
loop, with no name sanitization. -/
def extractSelectedTarLoop (ms : List TarMember) (dest : String) :
    List String → List WrittenFile → List WrittenFile × Option PyError
  | [], acc => (acc, none)
  | n :: ns, acc =>
    match tarGetMember ms n with
    | none => (acc, some (.keyError n))
    | some m =>
      if m.isdir then extractSelectedTarLoop ms dest ns acc
      else extractSelectedTarLoop ms dest ns
        (acc ++ [{ path := tarExtractTarget dest m.name, data := m.data }])

/-- Embedding of `CatRAR.extract_selected` (src/catrarv0.py lines 363-394),
after the destination dialog: a silent return when no archive is open or
nothing is selected, then the per-name extraction loop for the matching
format. -/
def extract_selected (st : CatRARState) (names : List String) (dest : String) :
    List WrittenFile × Option PyError :=
  match st.current_archive with
  | none => ([], none)
  | some ca =>
    if names.isEmpty then ([], none)
    else if strEndsWith ca ".zip" then
      match diskGet st.disk ca with
      | some (.zipC fl) => extractSelectedZipLoop fl dest names []
      | some (.tarC _ _) => ([], some (.badArchive "File is not a zip file"))
      | none => ([], some (.fileNotFound ca))
    else if strEndsWith ca ".tar" || strEndsWith ca ".tar.gz" then
      match diskGet st.disk ca with
      | some (.tarC gz ms) =>
        if strEndsWith ca ".gz" && !gz then ([], some (.badArchive "not a gzip file"))
        else extractSelectedTarLoop ms dest names []
      | some (.zipC _) => ([], some (.badArchive "truncated header"))
      | none => ([], some (.fileNotFound ca))
    else ([], none)

/-! ## `delete_selected` -/

/-- The rewrite loop of `delete_selected` (src/catrarv0.py lines 436-441):
`for item in zf_in.filelist: if item.filename not in selected_names:
data = zf_in.read(item.filename); zf_out.writestr(item, data)`.  Note that
the kept member's payload is fetched *by name*, so a duplicated name yields
the payload of its last occurrence for every kept duplicate, and `writestr`
re-stores the data (sizes recomputed, CRC freshly correct) rather than
copying the original compressed stream. -/
def zipRewriteExcluding (fl : List ZipEntry) (names : List String) : List ZipEntry :=
  (fl.filter (fun item => !names.contains item.info.filename)).map fun item =>
    let data := (zipReadByName fl item.info.filename).getD []
    { info := { item.info with file_size := data.length, compress_size := data.length }
      data := data
      crcOk := true }

/-- Embedding of `CatRAR.delete_selected` (src/catrarv0.py lines 416-450),
after the user confirmed the dialog: a silent return when no archive is open
or nothing is selected; for a `.zip` archive the container is rewritten
without the selected names into a temp file which then replaces the original
(`os.replace`, modelled as the store update); **there is no branch for TAR
archives** — the `if` has no `elif`/`else`, so nothing is rewritten; in
every case the archive is then reloaded and the status bar reports
"Deleted n item(s)". -/
def delete_selected (st : CatRARState) (names : List String) : CatRARState × Option PyError :=
  match st.current_archive with
  | none => (st, none)
  | some ca =>
    if names.isEmpty then (st, none)
    else if strEndsWith ca ".zip" then
      match diskGet st.disk ca with
      | some (.zipC fl) =>
        let st1 := { st with disk := diskSet st.disk ca (.zipC (zipRewriteExcluding fl names)) }
        reloadAndStatus st1 ca (.deleted names.length)
      | some (.tarC _ _) => (st, some (.badArchive "File is not a zip file"))
      | none => (st, some (.fileNotFound ca))
    else
      reloadAndStatus st ca (.deleted names.length)

/-! ## `test_archive` -/

/-- The outcome of the integrity test as the source reports it. -/
inductive TestResult where
  | passed
  | badFile (name : String)
  | failedTest (e : PyError)
  | noArchive
deriving DecidableEq, Repr

/-- `zf.testzip()`: reads every member and returns the name of the first one
whose stored CRC does not match, or `None`. -/
def zipTestzip (fl : List ZipEntry) : Option String :=
  (List.find? (fun z => !z.crcOk) fl).map (fun z => z.info.filename)

/-- Embedding of `tf.extractfile(member)`: it only **constructs a lazy file
object** positioned at the member's data — it reads and decodes none of the
member's bytes.  The returned handle is what the source discards. -/
def tarExtractfile (_ : TarMember) : Unit := ()

/-- Actually decoding a TAR member's byte stream end-to-end — what the
source's comment "we try to read all members" describes, i.e. calling
`.read()` on the extracted file object.  Fails on a member whose data blocks
are corrupted or truncated. -/
def tarReadMember (m : TarMember) : Except PyError (List Nat) :=
  if m.dataOk then .ok m.data else .error (.badData m.name)

/-- Embedding of `CatRAR.test_archive` (src/catrarv0.py lines 452-480).  For
ZIP, `testzip` reports the first CRC mismatch.  For TAR, the loop
`for member in tf.getmembers(): tf.extractfile(member)` only builds a lazy
handle per member and discards it, so no member data is ever decoded and the
test then reports success. -/
def test_archive (st : CatRARState) : CatRARState × TestResult :=
  match st.current_archive with
  | none => (st, .noArchive)
  | some ca =>
    let st := { st with statusText := .testing }
    if strEndsWith ca ".zip" then
      match diskGet st.disk ca with
      | some (.zipC fl) =>
        (match zipTestzip fl with
         | some bad => ({ st with statusText := .testCompleted }, .badFile bad)
         | none => ({ st with statusText := .testCompleted }, .passed))
      | some (.tarC _ _) => (st, .failedTest (.badArchive "File is not a zip file"))
      | none => (st, .failedTest (.fileNotFound ca))
    else if strEndsWith ca ".tar" || strEndsWith ca ".tar.gz" then
      match diskGet st.disk ca with
      | some (.tarC gz ms) =>
        if strEndsWith ca ".gz" && !gz then (st, .failedTest (.badArchive "not a gzip file"))
        else
          match ms.map tarExtractfile with
          | _ => ({ st with statusText := .testCompleted }, .passed)
      | some (.zipC _) => (st, .failedTest (.badArchive "truncated header"))
      | none => (st, .failedTest (.fileNotFound ca))
    else (st, .failedTest (.valueError "unsupported"))

/-! ## Enumeration from disk and the cache invariant -/

/-- Enumerating a container's members into entry metadata, independent of
any path: what a fresh `listEntries` of the on-disk file yields (first
component), with the error aborting the enumeration, if any (second). -/
def enumerateEntries : Container → List ArchiveEntry × Option PyError
  | .zipC fl => loadEntriesLoop zipEntryMeta fl []
  | .tarC _ ms => loadEntriesLoop tarEntryMeta ms []

/-- The session's cache agrees with the disk: whatever archive is current,
its on-disk container enumerates without error to exactly the cached entry
list. -/
def cacheMatchesDisk (st : CatRARState) : Prop :=
  ∀ p, st.current_archive = some p →
    ∃ c, diskGet st.disk p = some c ∧ enumerateEntries c = (st.archive_entries, none)

/-- The files of one requested name that the ZIP loop of `extract_selected`
writes: none when the name is missing or names a directory member, otherwise
the one file at its sanitized target path. -/
def zipWriteOf (fl : List ZipEntry) (dest : String) (n : String) : List WrittenFile :=
  match zipGetInfoEntry fl n with
  | none => []
  | some z =>
    if z.info.is_dir then []
    else [{ path := zipExtractTarget dest z.info.filename, data := z.data }]

/-- The files of one requested name that the TAR loop of `extract_selected`
writes: none when the name is missing or names a directory member, otherwise
the one file at `os.path.join(destination, member.name)` for the member
`getmember` resolves to. -/
def tarWriteOf (ms : List TarMember) (dest : String) (n : String) : List WrittenFile :=
  match tarGetMember ms n with
  | none => []
  | some m =>
    if m.isdir then []
    else [{ path := tarExtractTarget dest m.name, data := m.data }]

/-! ## Concrete sessions used to evaluate the operations -/

/-- A fresh session with an empty disk. -/
def exEmpty : CatRARState :=
  { current_archive := none, archive_entries := [], disk := [], statusText := .ready }

/-- An open plain TAR archive `a.tar` holding one regular member `x.txt`. -/
def exTarMember : TarMember := ⟨"x.txt", 2, 0, false, true, [104, 105]⟩

/-- Session with `a.tar` open. -/
def exTar : CatRARState :=
  { current_archive := some "a.tar"
    archive_entries := [⟨"x.txt", 2, 2, .unix 0, false⟩]
    disk := [("a.tar", .tarC false [exTarMember])]
    statusText := .loaded 1 }

/-- An open TAR archive whose single member name climbs out of any
destination directory. -/
def exEvil : CatRARState :=
  { current_archive := some "evil.tar"
    archive_entries := [⟨"../../etc/passwd", 2, 2, .unix 0, false⟩]
    disk := [("evil.tar", .tarC false [⟨"../../etc/passwd", 2, 0, false, true, [104, 105]⟩])]
    statusText := .loaded 1 }

/-- An open empty ZIP archive `a.zip`. -/
def exZip : CatRARState :=
  { current_archive := some "a.zip"
    archive_entries := []
    disk := [("a.zip", .zipC [])]
    statusText := .loaded 0 }

/-- An open empty gzip-compressed TAR archive `a.tar.gz`. -/
def exTgz : CatRARState :=
  { current_archive := some "a.tar.gz"
    archive_entries := []
    disk := [("a.tar.gz", .tarC true [])]
    statusText := .loaded 0 }

/-- A closed session whose disk holds `a.zip` with two members, the second
carrying a zeroed DOS date (its `date_time` decodes to month 0, day 0, which
`datetime` rejects). -/
def exBadDate : CatRARState :=
  { current_archive := none
    archive_entries := []
    disk := [("a.zip", .zipC
      [⟨⟨"good.txt", 2, 2, 33, 0⟩, [104, 105], true⟩,
       ⟨⟨"bad.txt", 2, 2, 0, 0⟩, [104, 105], true⟩])]
    statusText := .ready }

/-- A ZIP member list with a duplicated name `a` (payloads 1 and 2) and a
member `b`. -/
def dupFl : List ZipEntry :=
  [⟨⟨"a", 1, 1, 33, 0⟩, [1], true⟩, ⟨⟨"a", 1, 1, 33, 0⟩, [2], true⟩,
   ⟨⟨"b", 1, 1, 33, 0⟩, [3], true⟩]

/-- Session with the duplicate-name ZIP `d.zip` open. -/
def exDup : CatRARState :=
  { current_archive := some "d.zip"
    archive_entries :=
      [⟨"a", 1, 1, .calendar ⟨1980, 1, 1, 0, 0, 0⟩, false⟩,
       ⟨"a", 1, 1, .calendar ⟨1980, 1, 1, 0, 0, 0⟩, false⟩,
       ⟨"b", 1, 1, .calendar ⟨1980, 1, 1, 0, 0, 0⟩, false⟩]
    disk := [("d.zip", .zipC dupFl)]
    statusText := .loaded 3 }

/-- A TAR member whose header is intact but whose data blocks cannot be
decoded (`dataOk = false`). -/
def exBadTarMember : TarMember := ⟨"doc.txt", 5, 0, false, false, [1, 2, 3]⟩

/-- Session with `b.tar` open, holding only `exBadTarMember`. -/
def exBadTar : CatRARState :=
  { current_archive := some "b.tar"
    archive_entries := [⟨"doc.txt", 5, 5, .unix 0, false⟩]
    disk := [("b.tar", .tarC false [exBadTarMember])]
    statusText := .loaded 1 }

/-- The member list of `c.zip`: the single regular member `a.txt`. -/
def exZipOneFl : List ZipEntry := [⟨⟨"a.txt", 2, 2, 33, 0⟩, [104, 105], true⟩]

/-- Session with `c.zip` open, holding the single regular member `a.txt`. -/
def exZipOne : CatRARState :=
  { current_archive := some "c.zip"
    archive_entries := [⟨"a.txt", 2, 2, .calendar ⟨1980, 1, 1, 0, 0, 0⟩, false⟩]
    disk := [("c.zip", .zipC exZipOneFl)]
    statusText := .loaded 1 }

/-! ## Helper lemmas -/

theorem revStartsWith_append (l a b : List Char)
    (h : revStartsWith l (a ++ b) = true) : revStartsWith l a = true := by
  induction a generalizing l with
  | nil => cases l <;> rfl
  | cons x xs ih =>
    cases l with
    | nil => simp [revStartsWith] at h
    | cons c cs =>
      simp only [List.cons_append, revStartsWith, Bool.and_eq_true] at h ⊢
      exact ⟨h.1, ih cs h.2⟩

theorem revStartsWith_head (l : List Char) (x y : Char) (xs ys : List Char)
    (hx : revStartsWith l (x :: xs) = true)
    (hy : revStartsWith l (y :: ys) = true) : x = y := by
  cases l with
  | nil => simp [revStartsWith] at hx
  | cons c cs =>
    simp only [revStartsWith, Bool.and_eq_true, beq_iff_eq] at hx hy
    rw [← hx.1, ← hy.1]

/-- A path ending in `.tar.gz` ends in `.gz`. -/
theorem endsWith_targz_gz (p : String) (h : strEndsWith p ".tar.gz" = true) :
    strEndsWith p ".gz" = true := by
  have e : (".tar.gz" : String).data.reverse
      = (".gz" : String).data.reverse ++ ['r', 'a', 't', '.'] := by decide
  unfold strEndsWith listEndsWith at h ⊢
  rw [e] at h
  exact revStartsWith_append _ _ _ h

/-- A path ending in `.tar.gz` does not end in `.zip`. -/
theorem endsWith_targz_not_zip (p : String) (h : strEndsWith p ".tar.gz" = true) :
    strEndsWith p ".zip" = false := by
  cases hz : strEndsWith p ".zip" with
  | false => rfl
  | true =>
    exfalso
    unfold strEndsWith listEndsWith at h hz
    have e1 : (".tar.gz" : String).data.reverse = 'z' :: ['g', '.', 'r', 'a', 't', '.'] := by decide
    have e2 : (".zip" : String).data.reverse = 'p' :: ['i', 'z', '.'] := by decide
    rw [e1] at h
    rw [e2] at hz
    exact absurd (revStartsWith_head _ _ _ _ _ h hz) (by decide)

theorem diskGet_diskSet (d : Disk) (p : String) (c : Container) :
    diskGet (diskSet d p c) p = some c := by
  unfold diskGet diskSet
  rw [List.find?_cons_of_pos _ (by simp)]
  rfl

/-- Characterization of a successful `load_archive`: the path becomes
current, the disk is untouched, and the cache is exactly what the dispatch
enumerated. -/
theorem load_archive_ok {st st' : CatRARState} {p : String}
    (h : load_archive st p = (st', none)) :
    st'.current_archive = some p ∧ st'.disk = st.disk ∧
    loadDispatch st.disk p = (st'.archive_entries, none) := by
  unfold load_archive at h
  split at h
  next es heq =>
    simp only [Prod.mk.injEq] at h
    obtain ⟨h1, -⟩ := h
    subst h1
    exact ⟨rfl, rfl, heq⟩
  next es e heq =>
    simp only [Prod.mk.injEq] at h
    exact absurd h.2 (by simp)

/-- A successful dispatch found a container at the path, and enumerated
exactly it. -/
theorem loadDispatch_ok {d : Disk} {p : String} {es : List ArchiveEntry}
    (h : loadDispatch d p = (es, none)) :
    ∃ c, diskGet d p = some c ∧ enumerateEntries c = (es, none) := by
  unfold loadDispatch at h
  split at h
  · split at h
    next => simp at h
    next => simp at h
    next fl hg => exact ⟨.zipC fl, hg, h⟩
  · split at h
    · split at h
      next => simp at h
      next => simp at h
      next gz ms hg =>
        split at h
        next => simp at h
        next => exact ⟨.tarC gz ms, hg, h⟩
    · simp at h

/-- A successful reload followed by a status update leaves the cache in
agreement with the disk — the common tail of every mutating operation. -/
theorem reload_then_status_ok {st1 st' : CatRARState} {ca : String} {m : StatusMsg}
    (h : reloadAndStatus st1 ca m = (st', none)) :
    cacheMatchesDisk st' := by
  unfold reloadAndStatus at h
  split at h
  next st2 e heq =>
    simp only [Prod.mk.injEq] at h
    obtain ⟨h1, h2⟩ := h
    subst h2
    obtain ⟨hc, hd, hl⟩ := load_archive_ok heq
    obtain ⟨c, hcGet, hcEnum⟩ := loadDispatch_ok hl
    intro p hp
    rw [← h1] at hp
    simp only at hp
    rw [hc] at hp
    cases hp
    refine ⟨c, ?_, ?_⟩
    · rw [← h1]
      simp only
      rw [hd]
      exact hcGet
    · rw [← h1]
      simp only
      exact hcEnum

/-- Filtering on a member-name predicate commutes with projecting the
names. -/
theorem map_filter_name (fl : List ZipEntry) (q : String → Bool) :
    (fl.filter (fun z => q z.info.filename)).map (fun z => z.info.filename)
      = (fl.map (fun z => z.info.filename)).filter q := by
  induction fl with
  | nil => rfl
  | cons z zs ih =>
    simp only [List.filter_cons, List.map_cons]
    cases h : q z.info.filename with
    | false => simp [h, ih]
    | true => simp [h, ih]

/-- A member of the file list is found by `getinfo` of its own name. -/
theorem zipGetInfoEntry_isSome {fl : List ZipEntry} {item : ZipEntry}
    (h : item ∈ fl) : (zipGetInfoEntry fl item.info.filename).isSome = true := by
  unfold zipGetInfoEntry
  rw [List.find?_isSome]
  exact ⟨item, List.mem_reverse.2 h, by simp⟩

/-! ## Claims -/

/-- Claim C1 (code bug): the source has no path-safety guard at all.  On the
TAR side, both whole-archive extraction (`_extract`, via `tf.extractall`) and
single-entry extraction (`extract_selected`, via `tf.extract`) of a member
named `../../etc/passwd` into destination `/tmp/out` write the file at
`/tmp/out/../../etc/passwd`, which resolves to `/etc/passwd` — outside the
destination — and report no error of any kind (the error slot is `none`; no
`UnsafePathError` exists anywhere in `PyError` because the source defines no
such exception).  On the ZIP side the library silently strips the traversal
segments instead of rejecting the name. -/
theorem C1_traversal_writes_outside :
    (extract_all exEvil "/tmp/out").2.1.map
        (fun w => (resolveSegs w.path, isUnder "/tmp/out" w.path))
      = [(["etc", "passwd"], false)]
    ∧ (extract_all exEvil "/tmp/out").2.2 = none
    ∧ (extract_selected exEvil ["../../etc/passwd"] "/tmp/out").1.map
        (fun w => isUnder "/tmp/out" w.path) = [false]
    ∧ (extract_selected exEvil ["../../etc/passwd"] "/tmp/out").2 = none
    ∧ zipSanitizeArcname "../../etc/passwd" = "etc/passwd" := by decide

/-- Claim C2 (code bug): `delete_selected` has a rewrite branch only for
`.zip` archives; for an open `.tar` archive deleting `x.txt` reports success
— no error is surfaced and the status bar shows "Deleted 1 item(s)" — while
the member `x.txt` is still present in the container on disk and in the
refreshed entry cache.  No `UnsupportedOperationError` is raised. -/
theorem C2_tar_delete_reports_success_without_deleting :
    (delete_selected exTar ["x.txt"]).2 = none
    ∧ (delete_selected exTar ["x.txt"]).1.statusText = .deleted 1
    ∧ (delete_selected exTar ["x.txt"]).1.archive_entries.map (fun e => e.name) = ["x.txt"]
    ∧ diskGet (delete_selected exTar ["x.txt"]).1.disk "a.tar"
        = some (.tarC false [exTarMember]) := by decide

/-- Claim C7 (code bug): for a TAR archive whose member `doc.txt` has intact
headers but an undecodable data stream, `test_archive` reports a pass — the
loop calls `tf.extractfile(member)`, which only builds a lazy handle and
decodes none of the member's bytes — although actually reading the member's
byte stream end-to-end fails naming it.  This contradicts the source's own
comment "we try to read all members". -/
theorem C7_tar_test_decodes_nothing :
    (test_archive exBadTar).2 = .passed
    ∧ (test_archive exBadTar).1.statusText = .testCompleted
    ∧ tarReadMember exBadTarMember = .error (.badData "doc.txt")
    ∧ diskGet exBadTar.disk "b.tar" = some (.tarC false [exBadTarMember]) :=
  ⟨by decide, by decide, rfl, by decide⟩

/-- Claim C9 (confirmed): the deletion loop excludes members by *name*
(`item.filename not in selected_names`), so after `zipRewriteExcluding` no
member bearing a deleted name survives — in particular every duplicate of a
deleted name is removed, as the concrete duplicate container `dupFl`
(members `a`, `a`, `b`) shows at the session level: deleting `a` from the
open archive `d.zip` leaves exactly `b` on disk and in the cache. -/
theorem C9_delete_removes_every_duplicate :
    (∀ (fl : List ZipEntry) (names : List String),
      (zipRewriteExcluding fl names).all
        (fun z => !names.contains z.info.filename) = true)
    ∧ (delete_selected exDup ["a"]).1.archive_entries.map (fun e => e.name) = ["b"]
    ∧ ((delete_selected exDup ["a"]).1.disk.map
        (fun f => match f.2 with
          | .zipC fl => fl.map (fun z => z.info.filename)
          | .tarC _ ms => ms.map (fun m => m.name))) = [["b"]]
    ∧ (delete_selected exDup ["a"]).2 = none := by
  refine ⟨?_, by decide, by decide, by decide⟩
  intro fl names
  rw [List.all_eq_true]
  intro z hz
  unfold zipRewriteExcluding at hz
  obtain ⟨item, hitem, hgz⟩ := List.mem_map.1 hz
  have hpred := (List.mem_filter.1 hitem).2
  rw [← hgz]
  exact hpred

/-- Claim C5 counterexample: in a container with duplicate names
(`a` with payload `[1]`, `a` with payload `[2]`, `b` with payload `[3]`),
rewriting without `b` does **not** copy each kept entry's original bytes:
the rewrite loop fetches the payload by name (`zf_in.read(item.filename)`),
which resolves to the *last* member of that name, so the first kept `a`
comes out with payload `[2]` instead of its original `[1]`. -/
theorem C5_cx_kept_entry_bytes_replaced :
    dupFl.map (fun z => (z.info.filename, z.data))
      = [("a", [1]), ("a", [2]), ("b", [3])]
    ∧ (zipRewriteExcluding dupFl ["b"]).map (fun z => (z.info.filename, z.data))
      = [("a", [2]), ("a", [2])] := by decide

/-- Claim C5 amended: `zipRewriteExcluding` keeps exactly the members whose
names are not excluded, in their original relative order (first conjunct),
but each kept member's payload is the one `read`-by-name returns — the
payload of the **last** member bearing that name, re-stored by `writestr`
rather than raw-copied (second conjunct). -/
theorem C5_amended_order_kept_payload_by_name (fl : List ZipEntry) (names : List String) :
    ((zipRewriteExcluding fl names).map (fun z => z.info.filename)
      = (fl.map (fun z => z.info.filename)).filter (fun n => !names.contains n))
    ∧ (zipRewriteExcluding fl names).all
        (fun z => zipReadByName fl z.info.filename == some z.data) = true := by
  constructor
  · unfold zipRewriteExcluding
    rw [List.map_map]
    exact map_filter_name fl (fun n => !names.contains n)
  · rw [List.all_eq_true]
    intro z hz
    unfold zipRewriteExcluding at hz
    obtain ⟨item, hitem, hgz⟩ := List.mem_map.1 hz
    have hmem : item ∈ fl := (List.mem_filter.1 hitem).1
    obtain ⟨y, hy⟩ := Option.isSome_iff_exists.1 (zipGetInfoEntry_isSome hmem)
    have hread : zipReadByName fl item.info.filename = some y.data := by
      unfold zipReadByName
      rw [hy]
      rfl
    rw [← hgz]
    show (zipReadByName fl item.info.filename
        == some ((zipReadByName fl item.info.filename).getD [])) = true
    rw [hread]
    simp

/-- The behaviour of the ZIP loop of `extract_selected` on a request whose
first missing name is `m`: every present name before `m` has already been
written when the `KeyError` for `m` is raised. -/
theorem extractZipLoop_first_missing (fl : List ZipEntry) (dest : String)
    (pre suf : List String) (m : String) (acc : List WrittenFile)
    (hpre : ∀ n ∈ pre, (zipGetInfoEntry fl n).isSome = true)
    (hm : zipGetInfoEntry fl m = none) :
    extractSelectedZipLoop fl dest (pre ++ m :: suf) acc
      = (acc ++ (pre.map (zipWriteOf fl dest)).flatten, some (.keyError m)) := by
  induction pre generalizing acc with
  | nil =>
    simp only [List.nil_append, List.map_nil, List.flatten_nil, List.append_nil]
    unfold extractSelectedZipLoop
    rw [hm]
  | cons n ns ih =>
    have hn := hpre n (List.mem_cons_self n ns)
    obtain ⟨z, hz⟩ := Option.isSome_iff_exists.1 hn
    have hns : ∀ q ∈ ns, (zipGetInfoEntry fl q).isSome = true :=
      fun q hq => hpre q (List.mem_cons_of_mem n hq)
    simp only [List.cons_append]
    unfold extractSelectedZipLoop
    rw [hz]
    cases hd : z.info.is_dir with
    | true =>
      simp only [hd, eq_self_iff_true, if_true]
      rw [ih _ hns]
      simp [zipWriteOf, hz, hd]
    | false =>
      simp only [hd, Bool.false_eq_true, if_false]
      rw [ih _ hns]
      simp [zipWriteOf, hz, hd, List.append_assoc]

/-- The behaviour of the TAR loop of `extract_selected` on a request whose
first missing name is `m`: every present name before `m` has already been
written when the `KeyError` for `m` is raised. -/
theorem extractTarLoop_first_missing (ms : List TarMember) (dest : String)
    (pre suf : List String) (m : String) (acc : List WrittenFile)
    (hpre : ∀ n ∈ pre, (tarGetMember ms n).isSome = true)
    (hm : tarGetMember ms m = none) :
    extractSelectedTarLoop ms dest (pre ++ m :: suf) acc
      = (acc ++ (pre.map (tarWriteOf ms dest)).flatten, some (.keyError m)) := by
  induction pre generalizing acc with
  | nil =>
    simp only [List.nil_append, List.map_nil, List.flatten_nil, List.append_nil]
    unfold extractSelectedTarLoop
    rw [hm]
  | cons n ns ih =>
    have hn := hpre n (List.mem_cons_self n ns)
    obtain ⟨z, hz⟩ := Option.isSome_iff_exists.1 hn
    have hns : ∀ q ∈ ns, (tarGetMember ms q).isSome = true :=
      fun q hq => hpre q (List.mem_cons_of_mem n hq)
    simp only [List.cons_append]
    unfold extractSelectedTarLoop
    rw [hz]
    cases hd : z.isdir with
    | true =>
      simp only [hd, eq_self_iff_true, if_true]
      rw [ih _ hns]
      simp [tarWriteOf, hz, hd]
    | false =>
      simp only [hd, Bool.false_eq_true, if_false]
      rw [ih _ hns]
      simp [tarWriteOf, hz, hd, List.append_assoc]

/-- Claim C3 amended: `extract_selected` does **not** validate all requested
names before writing, on either of its branches.  For an open ZIP archive
(first conjunct) and for an open TAR archive (second conjunct), a request
`pre ++ [m] ++ suf` whose first missing name is `m` fails with a `KeyError`
naming `m`, but the files of every (present) name in `pre` have already been
written to the destination by the time the failure is raised. -/
theorem C3_amended_first_missing_after_writes
    (stZ stT : CatRARState) (caZ caT destZ destT : String)
    (fl : List ZipEntry) (gzT : Bool) (ms : List TarMember)
    (preZ sufZ preT sufT : List String) (mZ mT : String)
    (hcaZ : stZ.current_archive = some caZ)
    (hzZ : strEndsWith caZ ".zip" = true)
    (hdZ : diskGet stZ.disk caZ = some (.zipC fl))
    (hpreZ : ∀ n ∈ preZ, (zipGetInfoEntry fl n).isSome = true)
    (hmZ : zipGetInfoEntry fl mZ = none)
    (hcaT : stT.current_archive = some caT)
    (hzT : strEndsWith caT ".zip" = false)
    (htT : (strEndsWith caT ".tar" || strEndsWith caT ".tar.gz") = true)
    (hdT : diskGet stT.disk caT = some (.tarC gzT ms))
    (hmode : (strEndsWith caT ".gz" && !gzT) = false)
    (hpreT : ∀ n ∈ preT, (tarGetMember ms n).isSome = true)
    (hmT : tarGetMember ms mT = none) :
    extract_selected stZ (preZ ++ mZ :: sufZ) destZ
      = ((preZ.map (zipWriteOf fl destZ)).flatten, some (.keyError mZ))
    ∧ extract_selected stT (preT ++ mT :: sufT) destT
      = ((preT.map (tarWriteOf ms destT)).flatten, some (.keyError mT)) := by
  constructor
  · have hne : (preZ ++ mZ :: sufZ).isEmpty = false := by cases preZ <;> rfl
    unfold extract_selected
    rw [hcaZ]
    simp only [hne, Bool.false_eq_true, if_false, hzZ, if_true, hdZ]
    exact extractZipLoop_first_missing fl destZ preZ sufZ mZ [] hpreZ hmZ
  · have hne : (preT ++ mT :: sufT).isEmpty = false := by cases preT <;> rfl
    unfold extract_selected
    rw [hcaT]
    simp only [hne, Bool.false_eq_true, if_false, hzT, htT, if_true, hdT, hmode]
    exact extractTarLoop_first_missing ms destT preT sufT mT [] hpreT hmT

/-- Witness for C3 as amended: on the ZIP archive `c.zip` holding `a.txt`,
the request `["a.txt", "missing"]` fails naming `missing` with the file of
`a.txt` written; on the TAR archive `a.tar` holding `x.txt`, the request
`["x.txt", "missing"]` behaves the same way. -/
theorem C3_amended_witness :
    (extract_selected exZipOne (["a.txt"] ++ "missing" :: []) "/tmp/d"
      = ((["a.txt"].map (zipWriteOf exZipOneFl "/tmp/d")).flatten,
          some (.keyError "missing")))
    ∧ (extract_selected exTar (["x.txt"] ++ "missing" :: []) "/tmp/d"
      = ((["x.txt"].map (tarWriteOf [exTarMember] "/tmp/d")).flatten,
          some (.keyError "missing"))) :=
  C3_amended_first_missing_after_writes exZipOne exTar "c.zip" "a.tar"
    "/tmp/d" "/tmp/d" exZipOneFl false [exTarMember]
    ["a.txt"] [] ["x.txt"] [] "missing" "missing"
    rfl (by decide) (by decide) (by decide) (by decide)
    rfl (by decide) (by decide) (by decide) (by decide) (by decide) (by decide)

/-- Claim C3 counterexample: the claim says no file is extracted when a
requested name is missing, but on `c.zip` the request `["a.txt", "missing"]`
writes `/tmp/d/a.txt` before failing on `missing`. -/
theorem C3_cx_file_written_before_missing_name :
    extract_selected exZipOne ["a.txt", "missing"] "/tmp/d"
      = ([⟨"/tmp/d/a.txt", [104, 105]⟩], some (.keyError "missing")) := by decide

/-- Claim C4 counterexample: on a `.zip` archive whose second member has a
zeroed DOS date, `load_archive` fails (surfacing the `ValueError` from
`datetime`) and leaves the session closed — but the cached entry list
observably holds the first member only: one entry of the two on disk, a
partially-populated cache. -/
theorem C4_cx_cache_left_partially_populated :
    (load_archive exBadDate "a.zip").1.current_archive = none
    ∧ (load_archive exBadDate "a.zip").2 = some (.valueError "invalid datetime fields")
    ∧ (load_archive exBadDate "a.zip").1.archive_entries.map (fun e => e.name) = ["good.txt"]
    ∧ (diskGet exBadDate.disk "a.zip").map
        (fun c => match c with
          | .zipC fl => fl.length
          | .tarC _ ms => ms.length) = some 2 := by decide

/-- Claim C4 amended: when `load_archive` fails, `current_archive` is indeed
cleared and the disk untouched, but the cached entry list is left equal to
the prefix of entries decoded before the failure point (the first component
of the aborted dispatch) — empty when the failure precedes entry decoding,
partially populated when decoding aborted midway. -/
theorem C4_amended_closed_but_cache_holds_decoded_prefix
    (st st' : CatRARState) (p : String) (e : PyError)
    (h : load_archive st p = (st', some e)) :
    st'.current_archive = none ∧ st'.disk = st.disk
    ∧ st'.archive_entries = (loadDispatch st.disk p).1
    ∧ (loadDispatch st.disk p).2 = some e := by
  unfold load_archive at h
  split at h
  next es heq =>
    simp only [Prod.mk.injEq] at h
    exact absurd h.2 (by simp)
  next es e' heq =>
    simp only [Prod.mk.injEq] at h
    obtain ⟨h1, h2⟩ := h
    rw [← h1]
    rw [heq]
    exact ⟨rfl, rfl, rfl, h2⟩

/-- Witness for C4 as amended, at the concrete bad-date archive. -/
theorem C4_amended_witness :
    (load_archive exBadDate "a.zip").1.current_archive = none
    ∧ (load_archive exBadDate "a.zip").1.disk = exBadDate.disk
    ∧ (load_archive exBadDate "a.zip").1.archive_entries
        = (loadDispatch exBadDate.disk "a.zip").1
    ∧ (loadDispatch exBadDate.disk "a.zip").2
        = some (.valueError "invalid datetime fields") :=
  C4_amended_closed_but_cache_holds_decoded_prefix exBadDate
    (load_archive exBadDate "a.zip").1 "a.zip"
    (.valueError "invalid datetime fields") (by decide)

/-- Claim C8 counterexample: `new_archive` only creates containers for
`.zip` and `.tar.gz` paths.  At the fresh path `a.tar` nothing is written
(the `if/elif` falls through) and the immediate load fails on the missing
file, leaving the session closed; at `a.tgz` the load dispatch itself
recognizes no format.  In both cases the claimed create-then-open-empty
round trip fails. -/
theorem C8_cx_tar_and_tgz_creation_fails :
    (new_archive exEmpty "a.tar").2 = some (.fileNotFound "a.tar")
    ∧ (new_archive exEmpty "a.tar").1.current_archive = none
    ∧ diskGet (new_archive exEmpty "a.tar").1.disk "a.tar" = none
    ∧ (new_archive exEmpty "a.tgz").2 = some (.valueError "Unsupported archive format")
    ∧ (new_archive exEmpty "a.tgz").1.current_archive = none
    ∧ diskGet (new_archive exEmpty "a.tgz").1.disk "a.tgz" = none := by decide

/-- Claim C8 amended: the create-then-open round trip holds exactly for the
two extensions `new_archive` writes a container for: for a `.zip` or
`.tar.gz` path, `new_archive` succeeds and the session is open on that path
with an empty entry list. -/
theorem C8_amended_create_open_empty_for_zip_and_targz
    (st : CatRARState) (p : String)
    (h : strEndsWith p ".zip" = true ∨ strEndsWith p ".tar.gz" = true) :
    (new_archive st p).1.current_archive = some p
    ∧ (new_archive st p).1.archive_entries = []
    ∧ (new_archive st p).2 = none := by
  rcases h with h | h
  · unfold new_archive reloadAndStatus load_archive loadDispatch
    simp [h, diskGet_diskSet, loadEntriesLoop]
  · have hz := endsWith_targz_not_zip p h
    unfold new_archive reloadAndStatus load_archive loadDispatch
    simp [h, hz, diskGet_diskSet, loadEntriesLoop]

/-- Witness for C8 as amended, at the fresh path `b.tar.gz`. -/
theorem C8_amended_witness :
    (new_archive exEmpty "b.tar.gz").1.current_archive = some "b.tar.gz"
    ∧ (new_archive exEmpty "b.tar.gz").1.archive_entries = []
    ∧ (new_archive exEmpty "b.tar.gz").2 = none :=
  C8_amended_create_open_empty_for_zip_and_targz exEmpty "b.tar.gz"
    (Or.inr (by decide))

/-- Claim C6 (confirmed): every path through `_add_to_archive` and
`delete_selected` (the latter on an open archive with a nonempty selection)
that returns without surfacing an error ends in `load_archive`, so the
cached entry list equals the entry list enumerated from the container on
disk before control returns. -/
theorem C6_cache_equals_disk_after_mutation (st st' : CatRARState) (ca : String) :
    (∀ paths, add_to_archive st paths = (st', none) → cacheMatchesDisk st')
    ∧ (∀ names, st.current_archive = some ca → names ≠ [] →
        delete_selected st names = (st', none) → cacheMatchesDisk st') := by
  constructor
  · intro paths h
    unfold add_to_archive at h
    dsimp only at h
    split at h
    next => simp at h
    next ca' hca' =>
      split at h
      · split at h
        next => simp at h
        next => exact reload_then_status_ok h
        next => exact reload_then_status_ok h
      · split at h
        · split at h
          next => simp at h
          next =>
            split at h
            next => simp at h
            next =>
              split at h
              next => simp at h
              next => exact reload_then_status_ok h
            next => exact reload_then_status_ok h
        · exact reload_then_status_ok h
  · intro names hca hn h
    have hne : names.isEmpty = false := by
      cases names with
      | nil => exact absurd rfl hn
      | cons a l => rfl
    unfold delete_selected at h
    rw [hca] at h
    simp only [hne, Bool.false_eq_true, if_false] at h
    split at h
    · split at h
      next => exact reload_then_status_ok h
      next => simp at h
      next => simp at h
    · exact reload_then_status_ok h

/-- Witness for C6: a concrete successful add (to the open empty `a.zip`)
and a concrete successful delete (of `a` from the duplicate archive
`d.zip`), each leaving the cache equal to the disk enumeration. -/
theorem C6_witness :
    cacheMatchesDisk (add_to_archive exZip [⟨"x.txt", [104, 105], 0⟩]).1
    ∧ cacheMatchesDisk (delete_selected exDup ["a"]).1 :=
  ⟨(C6_cache_equals_disk_after_mutation exZip
      (add_to_archive exZip [⟨"x.txt", [104, 105], 0⟩]).1 "a.zip").1
      [⟨"x.txt", [104, 105], 0⟩] (by decide),
   (C6_cache_equals_disk_after_mutation exDup
      (delete_selected exDup ["a"]).1 "d.zip").2
      ["a"] rfl (by decide) (by decide)⟩

/-- Claim C10 (confirmed): for an open archive whose path ends in `.tar.gz`,
`_add_to_archive` always fails — the computed append mode is `a:gz`, which
`tarfile`'s gzip opener rejects with `ValueError` before touching the file —
and the returned state differs from the input state only in the provisional
"Adding files..." status: the disk and the cached entry list are unchanged. -/
theorem C10_targz_append_always_fails (st : CatRARState) (ca : String)
    (paths : List SrcFile)
    (hca : st.current_archive = some ca)
    (h : strEndsWith ca ".tar.gz" = true) :
    add_to_archive st paths
      = ({ st with statusText := .adding },
         some (.valueError "mode must be r, w or x")) := by
  have hz := endsWith_targz_not_zip ca h
  have hgz := endsWith_targz_gz ca h
  unfold add_to_archive
  simp only [hca, hz, h, hgz, Bool.false_eq_true, if_false, Bool.or_true, if_true]

/-- Witness for C10 at the open archive `a.tar.gz`. -/
theorem C10_witness :
    add_to_archive exTgz [⟨"x.txt", [104, 105], 0⟩]
      = ({ exTgz with statusText := .adding },
         some (.valueError "mode must be r, w or x")) :=
  C10_targz_append_always_fails exTgz "a.tar.gz" [⟨"x.txt", [104, 105], 0⟩]
    rfl (by decide)

end CatRAR

